import Mathlib

/-!
Shallow embedding of the QHttpServerResponse core of qthttpserver
(src/src/httpserver/qhttpserverresponse.cpp), together with the external
collaborators it uses (literal constants, the MIME database, the wire
writer and the file store), and proofs of the specified properties.

QByteArray is modelled as a Lean `String` (a byte string; all the code
treats it as an opaque byte sequence compared byte-exactly).
-/

namespace QtHttpServer

/-- Byte strings of the model (QByteArray). -/
abbrev QByteArray := String

/-- Status codes are an integer-backed enumeration; we carry the integer. -/
abbrev StatusCode := Nat

/-- HTTP 200 OK (QHttpServerResponder::StatusCode::Ok). -/
def StatusCode.Ok : StatusCode := 200

/-- HTTP 404 (QHttpServerResponder::StatusCode::NotFound). -/
def StatusCode.NotFound : StatusCode := 404

/-- Modelled from the spec: `QHttpServerLiterals::contentTypeHeader()`
(qhttpserverliterals_p.h is not among the sources); the header name used
for the content type. -/
def contentTypeHeader : QByteArray := "Content-Type"

/-- Modelled from the spec: `QHttpServerLiterals::contentTypeXEmpty()`
(qhttpserverliterals_p.h is not among the sources); the
empty-content-marker content type of the status-code-only constructor. -/
def contentTypeXEmpty : QByteArray := "application/x-empty"

/-- Modelled from the spec: `QHttpServerLiterals::contentTypeTextHtml()`
(qhttpserverliterals_p.h is not among the sources); the default returned
by `mimeType()` when no Content-Type entry is stored. -/
def contentTypeTextHtml : QByteArray := "text/html"

/-- Modelled from the spec: `QHttpServerLiterals::contentTypeJson()`
(qhttpserverliterals_p.h is not among the sources); the content type of
the JSON constructors. -/
def contentTypeJson : QByteArray := "application/json"

/-- Modelled from the spec: `QHttpServerLiterals::contentLengthHeader()`
(qhttpserverliterals_p.h is not among the sources). -/
def contentLengthHeader : QByteArray := "Content-Length"

/-- Modelled from the spec: the header collection of
`QHttpServerResponsePrivate` (qhttpserverresponse_p.h is not among the
sources).  The spec describes it as an ordered multimap realised as an
insertion-ordered sequence of (name, value) pairs: names are
case-sensitive byte strings, duplicates are preserved in insertion order,
reads return the first match, deletion and enumeration act on all
matches.  We model it as a `List` of pairs in insertion order. -/
abbrev HeaderList := List (QByteArray × QByteArray)

/-- The response model: `QHttpServerResponsePrivate` holds the body
bytes (`data`), the status code, and the header collection. -/
structure QHttpServerResponse where
  data : QByteArray
  statusCode : StatusCode
  headers : HeaderList
deriving DecidableEq, Repr

namespace QHttpServerResponse

/-- `addHeader(name, value)`: `d->headers.emplace(name, value)` — always
inserts, never removes; the new pair goes at the end of the insertion
order. -/
def addHeader (r : QHttpServerResponse) (name value : QByteArray) : QHttpServerResponse :=
  { r with headers := r.headers ++ [(name, value)] }

/-- `addHeaders(headers)`: applies `addHeader` to each pair in order. -/
def addHeaders (r : QHttpServerResponse) (hs : HeaderList) : QHttpServerResponse :=
  hs.foldl (fun acc p => acc.addHeader p.1 p.2) r

/-- `clearHeader(name)`: `d->headers.erase(name)` — removes every entry
whose name equals `name` byte-exactly. -/
def clearHeader (r : QHttpServerResponse) (name : QByteArray) : QHttpServerResponse :=
  { r with headers := r.headers.filter (fun p => p.1 != name) }

/-- `clearHeaders()`: `d->headers.clear()`. -/
def clearHeaders (r : QHttpServerResponse) : QHttpServerResponse :=
  { r with headers := [] }

/-- `setHeader(name, value)`: `clearHeader(name)` then
`addHeader(name, value)`, exactly as the source writes it. -/
def setHeader (r : QHttpServerResponse) (name value : QByteArray) : QHttpServerResponse :=
  (r.clearHeader name).addHeader name value

/-- `setHeaders(headers)`: applies `setHeader` to each pair in order. -/
def setHeaders (r : QHttpServerResponse) (hs : HeaderList) : QHttpServerResponse :=
  hs.foldl (fun acc p => acc.setHeader p.1 p.2) r

/-- `hasHeader(name)`: whether any entry with that name exists. -/
def hasHeader (r : QHttpServerResponse) (name : QByteArray) : Bool :=
  r.headers.any (fun p => p.1 == name)

/-- `hasHeader(name, value)`: whether any entry with that name also holds
exactly that value. -/
def hasHeaderValue (r : QHttpServerResponse) (name value : QByteArray) : Bool :=
  (r.headers.filter (fun p => p.1 == name)).any (fun p => p.2 == value)

/-- `headers(name)`: all values stored under `name`, in stored order
(the C++ member function `headers`; renamed because the structure field
of the same name holds the collection itself). -/
def headersFor (r : QHttpServerResponse) (name : QByteArray) : List QByteArray :=
  (r.headers.filter (fun p => p.1 == name)).map Prod.snd

/-- `mimeType()`: the first stored Content-Type value, or the text/html
default when none is stored. -/
def mimeType (r : QHttpServerResponse) : QByteArray :=
  match r.headers.find? (fun p => p.1 == contentTypeHeader) with
  | none => contentTypeTextHtml
  | some p => p.2

end QHttpServerResponse

/-- The canonical (mimeType, data, status) constructor: stores the body
and status, then sets the Content-Type header unless `mimeType` is
empty. -/
def mkResponse (mimeType data : QByteArray) (status : StatusCode) : QHttpServerResponse :=
  let r : QHttpServerResponse := { data := data, statusCode := status, headers := [] }
  if mimeType.isEmpty then r else r.setHeader contentTypeHeader mimeType

/-- The status-code-only constructor: delegates to the canonical
constructor with the x-empty content marker and an empty body. -/
def ofStatusCode (sc : StatusCode) : QHttpServerResponse :=
  mkResponse contentTypeXEmpty "" sc

/-- The raw-bytes/text constructor: delegates to the canonical
constructor with the MIME collaborator's inference for the bytes
(`QMimeDatabase().mimeTypeForData(data).name()`) and the default status
200.  The collaborator is passed as the function `mime`. -/
def ofByteArray (mime : QByteArray → QByteArray) (data : QByteArray) : QHttpServerResponse :=
  mkResponse (mime data) data StatusCode.Ok

/-- A JSON value (QJsonValue): the payload of the JSON constructors. -/
inductive QJsonValue where
  | null : QJsonValue
  | boolean : Bool → QJsonValue
  | num : Int → QJsonValue
  | str : QByteArray → QJsonValue
  | arr : List QJsonValue → QJsonValue
  | obj : List (QByteArray × QJsonValue) → QJsonValue

/-- JSON string escaping for the encoder (quote and backslash). -/
def escapeJsonString (s : String) : String :=
  s.data.foldl (fun acc c =>
    acc ++ (if c = '"' then "\\\"" else if c = '\\' then "\\\\" else String.singleton c)) ""

mutual

/-- Modelled from the spec: `QJsonDocument(...).toJson(QJsonDocument::Compact)`
(QtCore, not among the sources) — the compact JSON encoding, with no
extraneous whitespace. -/
def toJsonCompact : QJsonValue → String
  | QJsonValue.null => "null"
  | QJsonValue.boolean true => "true"
  | QJsonValue.boolean false => "false"
  | QJsonValue.num n => toString n
  | QJsonValue.str s => "\"" ++ escapeJsonString s ++ "\""
  | QJsonValue.arr xs => "[" ++ jsonArrayElems xs ++ "]"
  | QJsonValue.obj ps => "\x7b" ++ jsonObjectElems ps ++ "\x7d"

/-- Comma-separated compact encodings of array elements. -/
def jsonArrayElems : List QJsonValue → String
  | [] => ""
  | [x] => toJsonCompact x
  | x :: y :: xs => toJsonCompact x ++ "," ++ jsonArrayElems (y :: xs)

/-- Comma-separated compact encodings of object members. -/
def jsonObjectElems : List (QByteArray × QJsonValue) → String
  | [] => ""
  | [p] => "\"" ++ escapeJsonString p.1 ++ "\":" ++ toJsonCompact p.2
  | p :: q :: ps =>
      "\"" ++ escapeJsonString p.1 ++ "\":" ++ toJsonCompact p.2 ++ "," ++
        jsonObjectElems (q :: ps)

end

/-- The QJsonObject constructor: delegates to the canonical constructor
with content type application/json, the compact encoding as body, and
the default status 200. -/
def ofJsonObject (ps : List (QByteArray × QJsonValue)) : QHttpServerResponse :=
  mkResponse contentTypeJson (toJsonCompact (QJsonValue.obj ps)) StatusCode.Ok

/-- The QJsonArray constructor: delegates to the canonical constructor
with content type application/json, the compact encoding as body, and
the default status 200. -/
def ofJsonArray (xs : List QJsonValue) : QHttpServerResponse :=
  mkResponse contentTypeJson (toJsonCompact (QJsonValue.arr xs)) StatusCode.Ok

/-- `fromFile(fileName)`: opens and reads the file through the file-store
collaborator `fileStore` (`none` models an open failure); on failure it
returns the 404 status-code-only response, on success the canonical
response built from the MIME collaborator's filename-and-data inference
and the file's bytes, with the default status 200. -/
def fromFile (fileStore : String → Option QByteArray)
    (mimeForFileNameAndData : String → QByteArray → QByteArray)
    (fileName : String) : QHttpServerResponse :=
  match fileStore fileName with
  | none => ofStatusCode StatusCode.NotFound
  | some data => mkResponse (mimeForFileNameAndData fileName data) data StatusCode.Ok

/-- One emission of the wire writer (QHttpServerResponder): a status
line, a header line, or the body bytes. -/
inductive WireItem where
  | statusLine : StatusCode → WireItem
  | header : QByteArray → QByteArray → WireItem
  | body : QByteArray → WireItem
deriving DecidableEq, Repr

/-- `write(responder)`: nothing is emitted unless the responder's socket
is in the connected state; otherwise the status line, every stored
header in stored order, the freshly computed Content-Length header, and
the body are emitted, in that order. -/
def QHttpServerResponse.write (r : QHttpServerResponse) (connected : Bool) : List WireItem :=
  if !connected then []
  else
    WireItem.statusLine r.statusCode ::
      (r.headers.map (fun p => WireItem.header p.1 p.2) ++
        [WireItem.header contentLengthHeader (toString r.data.length),
         WireItem.body r.data])

/-- Whether a wire item is a Content-Length header line. -/
def isContentLengthItem : WireItem → Bool
  | WireItem.header n _ => n == contentLengthHeader
  | _ => false

/-- Folding `addHeader` over a pair list appends the pairs in order and
touches neither the body nor the status code. -/
theorem foldl_addHeader (ps : HeaderList) (r : QHttpServerResponse) :
    ps.foldl (fun acc p => acc.addHeader p.1 p.2) r =
      { data := r.data, statusCode := r.statusCode, headers := r.headers ++ ps } := by
  induction ps generalizing r with
  | nil => simp
  | cons p ps ih =>
      rw [List.foldl_cons, ih]
      simp [QHttpServerResponse.addHeader]

/-- Entries surviving a `clearHeader`-style filter never match the
cleared name again. -/
theorem filter_ne_then_eq (n : QByteArray) (l : HeaderList) :
    (l.filter (fun p => p.1 != n)).filter (fun p => p.1 == n) = [] := by
  induction l with
  | nil => rfl
  | cons p l ih => cases hpn : (p.1 == n) <;> simp [List.filter_cons, bne, hpn, ih]

/-- The canonical constructor stores exactly the given body bytes. -/
theorem mkResponse_data (m d : QByteArray) (s : StatusCode) : (mkResponse m d s).data = d := by
  by_cases h : m.isEmpty <;>
    simp [mkResponse, h, QHttpServerResponse.setHeader, QHttpServerResponse.clearHeader,
      QHttpServerResponse.addHeader]

/-- The canonical constructor stores exactly the given status code. -/
theorem mkResponse_statusCode (m d : QByteArray) (s : StatusCode) :
    (mkResponse m d s).statusCode = s := by
  by_cases h : m.isEmpty <;>
    simp [mkResponse, h, QHttpServerResponse.setHeader, QHttpServerResponse.clearHeader,
      QHttpServerResponse.addHeader]

/-- A first match through `find?` is the head of the all-matches filter. -/
theorem find_eq_head_filter (l : HeaderList) (n : QByteArray) :
    l.find? (fun p => p.1 == n) = (l.filter (fun p => p.1 == n)).head? := by
  induction l with
  | nil => rfl
  | cons p l ih =>
      cases hpn : (p.1 == n) with
      | false =>
          rw [@List.find?_cons_of_neg _ (fun q => q.1 == n) p l (by simp [hpn]),
            List.filter_cons, ih]
          simp [hpn]
      | true =>
          rw [@List.find?_cons_of_pos _ (fun q => q.1 == n) p l hpn, List.filter_cons]
          simp [hpn]

/-- C1: for a connected responder, `write` emits the status line and then
every stored header in the collection's iteration order, which for
headers produced by addHeader calls is their insertion order — duplicates
preserved, no deduplication, no reordering, no case-folding, for every
mix of header names — before the computed Content-Length and the body. -/
theorem write_emits_stored_headers_in_insertion_order
    (r : QHttpServerResponse) (ps : HeaderList) :
    r.write true =
      WireItem.statusLine r.statusCode ::
        (r.headers.map (fun p => WireItem.header p.1 p.2) ++
          [WireItem.header contentLengthHeader (toString r.data.length),
           WireItem.body r.data])
    ∧ (r.addHeaders ps).headers = r.headers ++ ps := by
  constructor
  · simp [QHttpServerResponse.write]
  · simp [QHttpServerResponse.addHeaders, foldl_addHeader]

/-- C3: for a connected responder, `write` emits a Content-Length header
whose value is the exact byte length of the body at write time, after all
stored headers; any caller-set Content-Length entry is still emitted as a
stored header, so the count of emitted Content-Length lines is the stored
count plus one — the computed value is never suppressed or replaced. -/
theorem write_content_length (r : QHttpServerResponse) :
    r.write true =
      (WireItem.statusLine r.statusCode ::
        r.headers.map (fun p => WireItem.header p.1 p.2)) ++
        [WireItem.header contentLengthHeader (toString r.data.length),
         WireItem.body r.data]
    ∧ (r.write true).countP isContentLengthItem
        = r.headers.countP (fun p => p.1 == contentLengthHeader) + 1 := by
  constructor
  · simp [QHttpServerResponse.write]
  · simp [QHttpServerResponse.write, List.countP_cons, List.countP_append, List.countP_map,
      isContentLengthItem, Function.comp_def]

/-- C4: `write` on a disconnected responder emits nothing at all — no
status line, no headers, no body — and, being a read-only (`const`)
query of the response in the model, leaves the response unchanged and
raises no error. -/
theorem write_disconnected (r : QHttpServerResponse) : r.write false = [] := by
  simp [QHttpServerResponse.write]

/-- C2 counterexample: on a response with no prior entries for the name,
`setHeaders [(n, v1), (n, v2)]` leaves only `v2` — the second `setHeader`
of the batch clears the entry the first one inserted, contradicting the
claim that `headers(n)` would contain both `v1` and `v2`. -/
theorem setHeaders_batch_counterexample :
    ((mkResponse "" "" StatusCode.Ok).setHeaders
        [("X-Test", "v1"), ("X-Test", "v2")]).headersFor "X-Test" = ["v2"]
    ∧ ¬ ((mkResponse "" "" StatusCode.Ok).setHeaders
        [("X-Test", "v1"), ("X-Test", "v2")]).headersFor "X-Test" = ["v1", "v2"] := by
  constructor
  · rfl
  · decide

/-- C2 amended: `setHeaders` applies the pairs left-to-right with
`setHeader`'s semantics, and a later pair that shares a name with an
earlier pair of the same list clears the earlier pair's entry as well
(`clearHeader` removes every entry with the name present at that moment,
batch-internal ones included), so after `setHeaders [(n, v1), (n, v2)]`
on any response, `headers(n)` is exactly `[v2]`. -/
theorem setHeaders_later_pair_overrides (r : QHttpServerResponse) (n v1 v2 : QByteArray) :
    r.setHeaders [(n, v1), (n, v2)] = (r.setHeader n v1).setHeader n v2
    ∧ (r.setHeaders [(n, v1), (n, v2)]).headersFor n = [v2] := by
  refine ⟨rfl, ?_⟩
  show (((r.setHeader n v1).setHeader n v2).headersFor n) = [v2]
  simp [QHttpServerResponse.setHeader, QHttpServerResponse.clearHeader,
    QHttpServerResponse.addHeader, QHttpServerResponse.headersFor,
    List.filter_append, List.filter_cons, filter_ne_then_eq, bne]

/-- C5: `setHeader(name, v)` is definitionally `clearHeader(name)`
followed by `addHeader(name, v)`, and consequently `addHeader(n, v1)`
followed by `setHeader(n, v2)` leaves `headers(n) = [v2]`, from any
starting response state. -/
theorem setHeader_eq_clear_then_add (r : QHttpServerResponse) (n v v1 v2 : QByteArray) :
    r.setHeader n v = (r.clearHeader n).addHeader n v
    ∧ ((r.addHeader n v1).setHeader n v2).headersFor n = [v2] := by
  refine ⟨rfl, ?_⟩
  simp [QHttpServerResponse.setHeader, QHttpServerResponse.clearHeader,
    QHttpServerResponse.addHeader, QHttpServerResponse.headersFor,
    List.filter_append, List.filter_cons, filter_ne_then_eq, bne]

/-- C6: `addHeader(n, v)` appends its pair without removing any stored
entry, `headers(n)` afterwards includes `v`, and a second `addHeader`
with the same name appends rather than replaces: `headers(n)` then ends
with the two values in insertion order and has length at least two. -/
theorem addHeader_appends (r : QHttpServerResponse) (n v v1 v2 : QByteArray) :
    (r.addHeader n v).headers = r.headers ++ [(n, v)]
    ∧ v ∈ (r.addHeader n v).headersFor n
    ∧ ((r.addHeader n v1).addHeader n v2).headersFor n = r.headersFor n ++ [v1, v2]
    ∧ 2 ≤ (((r.addHeader n v1).addHeader n v2).headersFor n).length := by
  have h2 : ((r.addHeader n v1).addHeader n v2).headersFor n
      = r.headersFor n ++ [v1, v2] := by
    simp [QHttpServerResponse.addHeader, QHttpServerResponse.headersFor,
      List.filter_append, List.filter_cons]
  refine ⟨rfl, ?_, h2, ?_⟩
  · simp [QHttpServerResponse.addHeader, QHttpServerResponse.headersFor,
      List.filter_append, List.filter_cons]
  · rw [h2]
    simp

/-- C7: `fromFile` is total (the open failure is consumed, never
surfaced): when the file cannot be opened it returns the well-formed 404
response with empty body and the empty-content-marker Content-Type, and
on success it returns the file's bytes as body with status 200. -/
theorem fromFile_spec (fs : String → Option QByteArray)
    (mime2 : String → QByteArray → QByteArray) (path : String) :
    (fs path = none →
      (fromFile fs mime2 path).statusCode = StatusCode.NotFound ∧
      (fromFile fs mime2 path).data = "" ∧
      (fromFile fs mime2 path).headersFor contentTypeHeader = [contentTypeXEmpty])
    ∧ (∀ d, fs path = some d →
      (fromFile fs mime2 path).statusCode = StatusCode.Ok ∧
      (fromFile fs mime2 path).data = d) := by
  constructor
  · intro h
    simp only [fromFile, h]
    refine ⟨rfl, rfl, rfl⟩
  · intro d h
    simp only [fromFile, h]
    exact ⟨mkResponse_statusCode _ _ _, mkResponse_data _ _ _⟩

/-- File-store stub for the witness: only "/ok" opens, with bytes "abc". -/
def fsStub : String → Option QByteArray :=
  fun p => if p = "/ok" then some "abc" else none

/-- MIME stub for the witness: a constant inference. -/
def mimeStub2 : String → QByteArray → QByteArray := fun _ _ => "text/plain"

/-- C7 witness: the failure branch at "/nonexistent/path" and the
success branch at "/ok", both through `fromFile_spec`. -/
theorem fromFile_spec_witness :
    (fromFile fsStub mimeStub2 "/nonexistent/path").statusCode = StatusCode.NotFound
    ∧ (fromFile fsStub mimeStub2 "/nonexistent/path").data = ""
    ∧ (fromFile fsStub mimeStub2 "/nonexistent/path").headersFor contentTypeHeader
        = [contentTypeXEmpty]
    ∧ (fromFile fsStub mimeStub2 "/ok").statusCode = StatusCode.Ok
    ∧ (fromFile fsStub mimeStub2 "/ok").data = "abc" := by
  have h1 := (fromFile_spec fsStub mimeStub2 "/nonexistent/path").1 (by decide)
  have h2 := (fromFile_spec fsStub mimeStub2 "/ok").2 "abc" (by decide)
  exact ⟨h1.1, h1.2.1, h1.2.2, h2.1, h2.2⟩

/-- C8: a response built on the raw-bytes path, whenever the MIME
collaborator's inference for the body is a nonempty name (a MIME type
name is never empty), stores exactly that inference as its Content-Type
header, reports it through `mimeType()`, and defaults to status 200. -/
theorem ofByteArray_content_type (mime : QByteArray → QByteArray) (b : QByteArray)
    (h : (mime b).isEmpty = false) :
    (ofByteArray mime b).headersFor contentTypeHeader = [mime b]
    ∧ (ofByteArray mime b).mimeType = mime b
    ∧ (ofByteArray mime b).statusCode = StatusCode.Ok
    ∧ (ofByteArray mime b).data = b := by
  simp [ofByteArray, mkResponse, h, QHttpServerResponse.setHeader,
    QHttpServerResponse.clearHeader, QHttpServerResponse.addHeader,
    QHttpServerResponse.headersFor, QHttpServerResponse.mimeType, List.find?]

/-- C8 witness: the constant inference "text/plain" on body "hello". -/
theorem ofByteArray_content_type_witness :
    (ofByteArray (fun _ => "text/plain") "hello").headersFor contentTypeHeader
        = ["text/plain"]
    ∧ (ofByteArray (fun _ => "text/plain") "hello").mimeType = "text/plain"
    ∧ (ofByteArray (fun _ => "text/plain") "hello").statusCode = StatusCode.Ok
    ∧ (ofByteArray (fun _ => "text/plain") "hello").data = "hello" :=
  ofByteArray_content_type (fun _ => "text/plain") "hello" (by decide)

/-- C9: a response built from a JSON object or array has status 200,
Content-Type application/json, and the compact encoding of the value as
its body; the other construction paths store their body bytes verbatim,
never auto-encoding them. -/
theorem json_construction (ps : List (QByteArray × QJsonValue)) (xs : List QJsonValue)
    (m d : QByteArray) (s : StatusCode) (mime : QByteArray → QByteArray)
    (b : QByteArray) (sc : StatusCode) :
    (ofJsonObject ps).statusCode = StatusCode.Ok
    ∧ (ofJsonObject ps).headersFor contentTypeHeader = [contentTypeJson]
    ∧ (ofJsonObject ps).data = toJsonCompact (QJsonValue.obj ps)
    ∧ (ofJsonArray xs).statusCode = StatusCode.Ok
    ∧ (ofJsonArray xs).headersFor contentTypeHeader = [contentTypeJson]
    ∧ (ofJsonArray xs).data = toJsonCompact (QJsonValue.arr xs)
    ∧ (mkResponse m d s).data = d
    ∧ (ofByteArray mime b).data = b
    ∧ (ofStatusCode sc).data = "" :=
  ⟨rfl, rfl, rfl, rfl, rfl, rfl, mkResponse_data m d s,
    mkResponse_data (mime b) b StatusCode.Ok, rfl⟩

/-- Compact-encoding scenario anchor: the JSON object with the single
member "a" holding 1 encodes with no extraneous whitespace. -/
theorem json_compact_scenario :
    (ofJsonObject [("a", QJsonValue.num 1)]).data = "\x7b\"a\":1\x7d" := by
  have hd : (ofJsonObject [("a", QJsonValue.num 1)]).data
      = toJsonCompact (QJsonValue.obj [("a", QJsonValue.num 1)]) := rfl
  rw [hd, toJsonCompact, jsonObjectElems, toJsonCompact]
  rfl

/-- C10: `mimeType()` on a response that stores no Content-Type entry
(for example one built through the explicit path with an empty mimeType)
returns the fixed text/html default, and on a response that does store
one it returns the first stored value. -/
theorem mimeType_default_or_first (r : QHttpServerResponse) (d : QByteArray) (s : StatusCode) :
    ((mkResponse "" d s).headersFor contentTypeHeader = []
      ∧ (mkResponse "" d s).mimeType = contentTypeTextHtml)
    ∧ (r.headersFor contentTypeHeader = [] → r.mimeType = contentTypeTextHtml)
    ∧ (∀ v vs, r.headersFor contentTypeHeader = v :: vs → r.mimeType = v) := by
  refine ⟨⟨rfl, rfl⟩, ?_, ?_⟩
  · intro h
    have hf : r.headers.filter (fun p => p.1 == contentTypeHeader) = [] :=
      List.map_eq_nil_iff.mp h
    simp [QHttpServerResponse.mimeType, find_eq_head_filter, hf]
  · intro v vs h
    unfold QHttpServerResponse.mimeType
    rw [find_eq_head_filter]
    unfold QHttpServerResponse.headersFor at h
    cases hf : r.headers.filter (fun p => p.1 == contentTypeHeader) with
    | nil => rw [hf] at h; simp at h
    | cons q qs =>
        rw [hf] at h
        simp only [List.map_cons, List.cons.injEq] at h
        simp [h.1]

/-- C10 witness: the default on a response storing no Content-Type, and
the first stored value on one that stores "text/css". -/
theorem mimeType_default_or_first_witness :
    (mkResponse "" "x" StatusCode.Ok).mimeType = contentTypeTextHtml
    ∧ ((mkResponse "" "" StatusCode.Ok).addHeader contentTypeHeader "text/css").mimeType
        = "text/css" := by
  have h1 := (mimeType_default_or_first (mkResponse "" "x" StatusCode.Ok)
      "x" StatusCode.Ok).2.1 (by decide)
  have h2 := (mimeType_default_or_first
      ((mkResponse "" "" StatusCode.Ok).addHeader contentTypeHeader "text/css")
      "" StatusCode.Ok).2.2 "text/css" [] (by decide)
  exact ⟨h1, h2⟩

end QtHttpServer
